import Mathlib

/-!
Verification of the tutorial-generation pipeline's LLM invocation gateway
(`src/utils/call_llm.py`), the pipeline wiring (`src/flow.py`) and the
GitLab crawling collaborator (`src/utils/crawl_gitlab_files.py`).

The Python code is shallowly embedded as pure Lean functions.  External
effects are modelled explicitly:

* the LLM provider is an oracle `gen : String → Except LLMError String`
  mapping the user-message payload sent to the provider to its reply or to
  the exception it raises (`BadRequestError msg` vs any other exception);
* every provider request payload is accumulated in a log (`List String`),
  so "no network call" is `log = []` and "retried exactly once" is visible
  as one extra payload in the log;
* the on-disk JSON cache file is a `CacheFile` (absent / unreadable /
  a parsed JSON object, the latter as an association list with Python
  `dict` insert-or-replace and lookup semantics); the function receives
  two snapshots, the file as read at entry and the file as re-read just
  before the post-call write, and reports the object it writes (if any);
* HTTP traffic of the crawler is an oracle from page number / file path to
  the response (status, text, parsed JSON items).
-/

namespace PFTutorial

/-! ## Python string primitives used by `call_llm` -/

/-- Python `str.strip()` (whitespace strip at both ends). -/
def pstrip (s : String) : String :=
  String.mk (((s.toList.dropWhile Char.isWhitespace).reverse.dropWhile Char.isWhitespace).reverse)

/-- Python `str.lower()` (per-character lowering). -/
def strToLower (s : String) : String := String.mk (s.toList.map Char.toLower)

/-- `pat.isPrefixOf l || pat` occurs somewhere later in `l`:
Python's substring test `pat in l` on character lists. -/
def containsAux (pat : List Char) : List Char → Bool
  | [] => pat.isEmpty
  | c :: rest => pat.isPrefixOf (c :: rest) || containsAux pat rest

/-- Python `pat in s` (substring containment). -/
def strContains (s pat : String) : Bool := containsAux pat.toList s.toList

/-- Auxiliary chunker with explicit fuel (`fuel = l.length` suffices for any
positive chunk size).  Mirrors Python
`for i in range(0, len(text), chunk_size): text[i:i+chunk_size]`. -/
def chunkListAux (size : Nat) : Nat → List Char → List (List Char)
  | 0, _ => []
  | _, [] => []
  | fuel + 1, l => l.take size :: chunkListAux size fuel (l.drop size)

/-- Split a string into consecutive chunks of `size` characters (the last
chunk may be shorter), as the slicing loop in `summarize_chunks_openai` /
`summarize_chunks_google` does. -/
def chunkString (size : Nat) (s : String) : List String :=
  (chunkListAux size s.toList.length s.toList).map String.mk

/-! ## Provider oracle and request log -/

/-- Runtime failures a provider call can raise: `badRequest msg` embeds
`openai.BadRequestError` with `str(e) = msg`; `otherError` is any other
exception. -/
inductive LLMError where
  | badRequest (msg : String)
  | otherError (msg : String)
  deriving DecidableEq, Repr

/-- A deterministic provider: user-message payload to reply or exception. -/
abbrev Oracle := String → Except LLMError String

/-- Outcome of a fragment of `call_llm`: the value produced (or the
propagated exception) together with the provider request log so far. -/
abbrev Res (α : Type) := Except LLMError α × List String

/-- One provider API call: the payload is recorded in the log, then the
oracle's verdict is returned. -/
def send (gen : Oracle) (log : List String) (payload : String) : Res String :=
  (gen payload, log ++ [payload])

/-! ## `summarize_chunks_openai` / `summarize_chunks_google`
(`src/utils/call_llm.py` lines 57-118) -/

/-- The per-chunk compression loop: each chunk is sent independently with
the fixed compression instruction, its reply is `.strip()`ped and
collected; a raised exception aborts the loop and propagates. -/
def summarizeList (gen : Oracle) (log : List String) : List String → Res (List String)
  | [] => (.ok [], log)
  | c :: rest =>
    match send gen log ("Compress this chunk:\n" ++ c) with
    | (.ok r, log1) =>
      match summarizeList gen log1 rest with
      | (.ok rs, log2) => (.ok (pstrip r :: rs), log2)
      | (.error e, log2) => (.error e, log2)
    | (.error e, log1) => (.error e, log1)

/-- The bounded re-compression loop
`while len(combined) > max_chars and reduce_round < 3`, with `fuel` the
number of rounds still allowed (the source starts it at 3). -/
def reduceLoop (gen : Oracle) (max_chars : Nat) : Nat → List String → String → Res String
  | 0, log, combined => (.ok combined, log)
  | fuel + 1, log, combined =>
    if combined.length > max_chars then
      match send gen log ("Further compress while preserving technical fidelity:\n" ++ combined) with
      | (.ok r, log1) => reduceLoop gen max_chars fuel log1 (pstrip r)
      | (.error e, log1) => (.error e, log1)
    else (.ok combined, log)

/-- `summarize_chunks_openai(text, client, model, max_chars)`: chunk the
text at `chunk_size` characters, compress every chunk independently, join
the summaries with `"\n\n"`, then re-compress the concatenation for at
most 3 rounds while it still exceeds `max_chars`. -/
def summarize_chunks_openai (gen : Oracle) (chunk_size max_chars : Nat)
    (log : List String) (text : String) : Res String :=
  match summarizeList gen log (chunkString chunk_size text) with
  | (.ok summaries, log1) =>
    reduceLoop gen max_chars 3 log1 (String.intercalate "\n\n" summaries)
  | (.error e, log1) => (.error e, log1)

/-- `summarize_chunks_google` has exactly the same control flow as
`summarize_chunks_openai` (only the client API object differs, which the
oracle abstracts), so the embedding coincides. -/
def summarize_chunks_google (gen : Oracle) (chunk_size max_chars : Nat)
    (log : List String) (text : String) : Res String :=
  summarize_chunks_openai gen chunk_size max_chars log text

/-! ## The provider branches of `call_llm` (lines 139-187) -/

/-- The `try`/`except BadRequestError` block (lines 156-173): call the
provider on `effective`; if it raises `BadRequestError` whose lowered
message contains `"context length"`, compress once more at
`max_chars / 2` (Python `max_chars // 2`) and retry exactly once, the
retry being outside any handler; any other exception is re-raised. -/
def openai_main_call (gen : Oracle) (chunk_size max_chars : Nat)
    (log : List String) (effective : String) : Res String :=
  match send gen log effective with
  | (.ok r, log1) => (.ok r, log1)
  | (.error (.badRequest msg), log1) =>
    if strContains (strToLower msg) "context length" then
      match summarize_chunks_openai gen chunk_size (max_chars / 2) log1 effective with
      | (.ok e2, log2) => send gen log2 e2
      | (.error e, log2) => (.error e, log2)
    else (.error (.badRequest msg), log1)
  | (.error e, log1) => (.error e, log1)

/-- The OpenAI branch (lines 149-173): compress the prompt first when it
exceeds the ceiling, then run the guarded main call. -/
def openai_call (gen : Oracle) (chunk_size max_chars : Nat)
    (log : List String) (prompt : String) : Res String :=
  if prompt.length > max_chars then
    match summarize_chunks_openai gen chunk_size max_chars log prompt with
    | (.ok eff, log1) => openai_main_call gen chunk_size max_chars log1 eff
    | (.error e, log1) => (.error e, log1)
  else openai_main_call gen chunk_size max_chars log prompt

/-- The Google Gemini branch (lines 174-187): compress when over the
ceiling, then a single unguarded provider call (every exception
propagates). -/
def google_call (gen : Oracle) (chunk_size max_chars : Nat)
    (log : List String) (prompt : String) : Res String :=
  if prompt.length > max_chars then
    match summarize_chunks_google gen chunk_size max_chars log prompt with
    | (.ok eff, log1) => send gen log1 eff
    | (.error e, log1) => (.error e, log1)
  else send gen log prompt

/-! ## The on-disk cache -/

/-- State of the cache file `llm_cache.json` on disk: missing, present but
unreadable as JSON (an empty file also fails `json.load`), or a parsed
JSON object, represented as an association list. -/
inductive CacheFile where
  | absent
  | unreadable
  | valid (entries : List (String × String))
  deriving DecidableEq, Repr

/-- Lines 126-132 / 195-201: `cache = {}`, then `json.load` when the file
exists, any failure falling back to the empty dict. -/
def loadCache : CacheFile → List (String × String)
  | .absent => []
  | .unreadable => []
  | .valid entries => entries

/-- Python `cache[prompt]` / `prompt in cache` on the association list. -/
def dictLookup (k : String) : List (String × String) → Option String
  | [] => none
  | (k', v) :: rest => if k' = k then some v else dictLookup k rest

/-- Python `cache[k] = v` on the association list: replace the bound value
when the key is present, append otherwise. -/
def dictInsert (k v : String) (d : List (String × String)) : List (String × String) :=
  if d.any (fun p => p.1 = k) then
    d.map (fun p => if p.1 = k then (k, v) else p)
  else d ++ [(k, v)]

/-- Which provider `LLM_PROVIDER` selects (`"openai"` or the default
Google Gemini). -/
inductive ProviderChoice where
  | openai
  | google
  deriving DecidableEq, Repr

/-- What a completed `call_llm` produced: the returned response text and
the JSON object written to the cache file (`none` when no write happened:
caching disabled, cache hit, or the write raised and was skipped). -/
structure CallResult where
  response : String
  written : Option (List (String × String))
  deriving DecidableEq, Repr

/-- `call_llm(prompt, use_cache)` (lines 29-211).

Parameters model the ambient configuration and external state:
`provider` is `LLM_PROVIDER`; `gen` the provider client; `chunk_size` and
`max_chars` the (env-overridable) chunk size and context ceiling;
`cacheAtRead` the cache file as it stands when the call starts;
`cacheAtWrite` the cache file as it stands when it is re-read just before
the post-call write (lines 195-201); `writeOk` whether the write
(lines 205-209) succeeds (a failure is logged and skipped).

Control flow: when `use_cache`, load the cache and return the entry for
the exact prompt when present (no provider request).  Otherwise run the
selected provider branch; on success, when `use_cache`, re-load the cache,
bind the *original* prompt to the raw response and write the object back
(best effort).  The response is returned either way. -/
def call_llm (provider : ProviderChoice) (gen : Oracle) (chunk_size max_chars : Nat)
    (cacheAtRead cacheAtWrite : CacheFile) (writeOk : Bool)
    (prompt : String) (use_cache : Bool) : Res CallResult :=
  let cached := if use_cache then dictLookup prompt (loadCache cacheAtRead) else none
  match cached with
  | some v => (.ok ⟨v, none⟩, [])
  | none =>
    let branch :=
      match provider with
      | .openai => openai_call gen chunk_size max_chars [] prompt
      | .google => google_call gen chunk_size max_chars [] prompt
    match branch with
    | (.error e, log) => (.error e, log)
    | (.ok response_text, log) =>
      let written :=
        if use_cache then
          if writeOk then
            some (dictInsert prompt response_text (loadCache cacheAtWrite))
          else none
        else none
      (.ok ⟨response_text, written⟩, log)

/-! ## `create_tutorial_flow` (`src/flow.py`)

The pocketflow dependency is external; `a >> b` sets `b` as `a`'s default
successor, and `Flow(start=...)` records the start node.  We model the
successor map being built up by the sequence of `>>` statements. -/

/-- The nodes instantiated by `create_tutorial_flow`. -/
inductive NodeId where
  | fetchRepo
  | identifyAbstractionsMap
  | identifyAbstractionsReduce
  | analyzeRelationships
  | orderChapters
  | writeChapters
  | combineTutorial
  deriving DecidableEq, Repr

/-- pocketflow `a >> b`: record `b` as the (default-action) successor of
`a`, leaving every other node's successor unchanged. -/
def rshift (succ : NodeId → Option NodeId) (a b : NodeId) : NodeId → Option NodeId :=
  fun n => if n = a then some b else succ n

/-- A pocketflow `Flow`: the start node plus the successor map accumulated
by the `>>` statements. -/
structure TutorialFlow where
  start : NodeId
  succ : NodeId → Option NodeId

/-- `create_tutorial_flow()` (`src/flow.py` lines 14-40): the six `>>`
statements applied in order to an initially empty successor map, and
`Flow(start=fetch_repo)`. -/
def create_tutorial_flow : TutorialFlow :=
  let s0 : NodeId → Option NodeId := fun _ => none
  let s1 := rshift s0 .fetchRepo .identifyAbstractionsMap
  let s2 := rshift s1 .identifyAbstractionsMap .identifyAbstractionsReduce
  let s3 := rshift s2 .identifyAbstractionsReduce .analyzeRelationships
  let s4 := rshift s3 .analyzeRelationships .orderChapters
  let s5 := rshift s4 .orderChapters .writeChapters
  let s6 := rshift s5 .writeChapters .combineTutorial
  { start := .fetchRepo, succ := s6 }

/-! ## `crawl_gitlab_files` (`src/utils/crawl_gitlab_files.py`)

The HTTP layer is an oracle: `lp page` is the (deterministic) response to
the repository-tree listing request for `page`, `rf path` the response to
the raw-file request for `path`.  URL parsing (stdlib `urlparse` plus
string slicing, lines 59-91) only determines which URLs the oracles stand
for and is not claimed about, so `specific_path` and the flags enter as
parameters.  `fnm` embeds stdlib `fnmatch.fnmatch`. -/

/-- One entry of the JSON array returned by the tree-listing API. -/
structure TreeItem where
  type : String
  path : String
  name : String
  deriving DecidableEq, Repr

/-- An HTTP response to a tree-listing request: status code, body text,
and the parsed JSON items (meaningful when `status = 200`). -/
structure PageResp where
  status : Nat
  text : String
  items : List TreeItem
  deriving DecidableEq, Repr

/-- An HTTP response to a raw-file request: status code and body text. -/
structure FetchResp where
  status : Nat
  text : String
  deriving DecidableEq, Repr

/-- The `stats` dict of the returned value.  Python returns `{"error": m}`
on listing failure and the full counts dict on success; `none` fields
model absent keys. -/
structure CrawlStats where
  error : Option String
  downloaded_count : Option Nat
  skipped_count : Option Nat
  skipped_files : Option (List (String × Nat))
  deriving DecidableEq, Repr

/-- The dict returned by `crawl_gitlab_files`. -/
structure CrawlReturn where
  files : List (String × String)
  stats : CrawlStats
  deriving DecidableEq, Repr

/-- `should_include_file(file_path, file_name)` (lines 45-57): the include
patterns are tested against the bare file name, and only when the file
passed inclusion and exclude patterns exist are the exclude patterns
tested against the (relative) path. -/
def should_include_file (fnm : String → String → Bool) (include_patterns exclude_patterns : List String)
    (file_path file_name : String) : Bool :=
  let include_file :=
    if include_patterns.isEmpty then true
    else include_patterns.any (fun p => fnm file_name p)
  if !exclude_patterns.isEmpty && include_file then
    !(exclude_patterns.any (fun p => fnm file_path p))
  else include_file

/-- Python `s.lstrip("/")`. -/
def lstripSlash (s : String) : String := String.mk (s.toList.dropWhile (fun c => c = '/'))

/-- The pagination loop (lines 96-126) with explicit `fuel` (the Python
`while True` loop can spin forever on endless 429 responses; `none` marks
that divergence).  401/404/other non-200 statuses short-circuit with an
error message; an empty page or a page shorter than 100 items ends the
listing. -/
def listLoop (lp : Nat → PageResp) : Nat → Nat → List TreeItem → Option (Except String (List TreeItem))
  | 0, _, _ => none
  | fuel + 1, page, acc =>
    let r := lp page
    if r.status = 401 then some (.error "Unauthorized")
    else if r.status = 404 then some (.error "Not found")
    else if r.status = 429 then listLoop lp fuel page acc
    else if r.status ≠ 200 then some (.error (String.mk (r.text.toList.take 200)))
    else
      let data := r.items
      if data.isEmpty then some (.ok acc)
      else if data.length < 100 then some (.ok (acc ++ data))
      else listLoop lp fuel (page + 1) (acc ++ data)

/-- Blob collection (lines 129-140): keep only `"blob"` items, derive the
relative path when `use_relative_paths` and the item path starts with
`specific_path`, and apply the include/exclude filter (include patterns
against the item *name*, exclude patterns against the relative path). -/
def collectBlobs (use_relative_paths : Bool) (specific_path : String)
    (fnm : String → String → Bool) (include_patterns exclude_patterns : List String)
    (items : List TreeItem) : List (String × String) :=
  items.filterMap fun item =>
    if item.type ≠ "blob" then none
    else
      let rel :=
        if use_relative_paths && !specific_path.isEmpty &&
            specific_path.toList.isPrefixOf item.path.toList then
          lstripSlash (String.mk (item.path.toList.drop specific_path.length))
        else item.path
      if should_include_file fnm include_patterns exclude_patterns rel item.name then
        some (item.path, rel)
      else none

/-- The raw-content loop (lines 143-164): a non-200 fetch records
`(rel, 0)` in `skipped_files`; a 200 body whose UTF-8 byte size exceeds
`max_file_size` records `(rel, size)` and the file is omitted entirely;
otherwise the content is stored under the relative path. -/
def fetchLoop (rf : String → FetchResp) (max_file_size : Nat) :
    List (String × String) → List (String × String) → List (String × Nat) →
    List (String × String) × List (String × Nat)
  | [], files, skipped => (files, skipped)
  | (p, rel) :: rest, files, skipped =>
    let r := rf p
    if r.status ≠ 200 then
      fetchLoop rf max_file_size rest files (skipped ++ [(rel, 0)])
    else
      let content := r.text
      let size := content.utf8ByteSize
      if size > max_file_size then
        fetchLoop rf max_file_size rest files (skipped ++ [(rel, size)])
      else
        fetchLoop rf max_file_size rest (dictInsert rel content files) skipped

/-- `crawl_gitlab_files` after URL parsing: run the pagination loop
(returning `none` when the 429 retry loop exceeds `fuel`), on a listing
error return the empty file dict with an error-only stats dict, otherwise
filter blobs, fetch contents and assemble the stats dict
(lines 166-176). -/
def crawl_gitlab_files (lp : Nat → PageResp) (rf : String → FetchResp) (fuel : Nat)
    (max_file_size : Nat) (use_relative_paths : Bool) (specific_path : String)
    (fnm : String → String → Bool) (include_patterns exclude_patterns : List String) :
    Option CrawlReturn :=
  match listLoop lp fuel 1 [] with
  | none => none
  | some (.error e) => some ⟨[], ⟨some e, none, none, none⟩⟩
  | some (.ok items) =>
    let blobs := collectBlobs use_relative_paths specific_path fnm include_patterns exclude_patterns items
    let fs := fetchLoop rf max_file_size blobs [] []
    some ⟨fs.1, ⟨none, some fs.1.length, some fs.2.length, some fs.2⟩⟩

/-! ## Helper instances and lemmas -/

instance {ε α : Type} [DecidableEq ε] [DecidableEq α] : DecidableEq (Except ε α) := fun x y =>
  match x, y with
  | .ok a, .ok b =>
    if h : a = b then isTrue (by rw [h]) else isFalse (fun hc => by cases hc; exact h rfl)
  | .error a, .error b =>
    if h : a = b then isTrue (by rw [h]) else isFalse (fun hc => by cases hc; exact h rfl)
  | .ok _, .error _ => isFalse (fun hc => by cases hc)
  | .error _, .ok _ => isFalse (fun hc => by cases hc)

theorem lookup_map_replace (k v : String) :
    ∀ d : List (String × String), d.any (fun p => p.1 = k) = true →
      dictLookup k (d.map (fun p => if p.1 = k then (k, v) else p)) = some v := by
  intro d
  induction d with
  | nil => simp
  | cons hd tl ih =>
    obtain ⟨k', v'⟩ := hd
    intro h
    by_cases hk : k' = k
    · subst hk
      rw [List.map_cons]
      have h1 : (if (k', v').1 = k' then (k', v) else (k', v')) = (k', v) := if_pos rfl
      rw [h1]
      simp [dictLookup]
    · simp only [List.any_cons, Bool.or_eq_true, decide_eq_true_eq] at h
      rcases h with h | h
      · exact absurd h hk
      · rw [List.map_cons]
        have h1 : (if (k', v').1 = k then (k, v) else (k', v')) = (k', v') := if_neg hk
        rw [h1]
        simp [dictLookup, hk, ih h]

theorem lookup_append_self (k v : String) :
    ∀ d : List (String × String), d.any (fun p => p.1 = k) = false →
      dictLookup k (d ++ [(k, v)]) = some v := by
  intro d
  induction d with
  | nil => intro _; simp [dictLookup]
  | cons hd tl ih =>
    obtain ⟨k', v'⟩ := hd
    intro h
    by_cases hk : k' = k
    · rw [List.any_cons] at h
      simp [hk] at h
    · cases hb : tl.any (fun p => p.1 = k) with
      | false => simp [dictLookup, hk, ih hb]
      | true => rw [List.any_cons, hb] at h; simp at h

theorem dictLookup_dictInsert (k v : String) (d : List (String × String)) :
    dictLookup k (dictInsert k v d) = some v := by
  unfold dictInsert
  by_cases ha : d.any (fun p => p.1 = k) = true
  · rw [if_pos ha]
    exact lookup_map_replace k v d ha
  · rw [if_neg ha]
    have hfalse : d.any (fun p => p.1 = k) = false := by
      cases hb : d.any (fun p => p.1 = k) with
      | false => rfl
      | true => exact absurd hb ha
    exact lookup_append_self k v d hfalse

theorem mem_dictInsert {e : String × String} {k v : String} {d : List (String × String)}
    (h : e ∈ dictInsert k v d) : e = (k, v) ∨ e ∈ d := by
  unfold dictInsert at h
  by_cases ha : d.any (fun p => p.1 = k) = true
  · rw [if_pos ha, List.mem_map] at h
    obtain ⟨p, hp, he⟩ := h
    by_cases hk : p.1 = k
    · rw [if_pos hk] at he
      exact Or.inl he.symm
    · rw [if_neg hk] at he
      exact Or.inr (he ▸ hp)
  · rw [if_neg ha, List.mem_append] at h
    rcases h with h | h
    · exact Or.inr h
    · rw [List.mem_singleton] at h
      exact Or.inl h

theorem summarizeList_log (gen : Oracle) (cs : List String) :
    ∀ log, ∃ t, (summarizeList gen log cs).2 = log ++ t ∧ (cs ≠ [] → t ≠ []) := by
  induction cs with
  | nil =>
    intro log
    exact ⟨[], by simp [summarizeList], fun h => absurd rfl h⟩
  | cons c rest ih =>
    intro log
    unfold summarizeList send
    cases hg : gen ("Compress this chunk:\n" ++ c) with
    | error e =>
      exact ⟨["Compress this chunk:\n" ++ c], by simp, fun _ => by simp⟩
    | ok r =>
      obtain ⟨t, ht, -⟩ := ih (log ++ ["Compress this chunk:\n" ++ c])
      cases hrec : summarizeList gen (log ++ ["Compress this chunk:\n" ++ c]) rest with
      | mk fst snd =>
        rw [hrec] at ht
        cases fst with
        | ok rs =>
          exact ⟨["Compress this chunk:\n" ++ c] ++ t,
            by simp only [hrec]; simpa using ht, fun _ => by simp⟩
        | error e =>
          exact ⟨["Compress this chunk:\n" ++ c] ++ t,
            by simp only [hrec]; simpa using ht, fun _ => by simp⟩

theorem reduceLoop_log (gen : Oracle) (mc : Nat) :
    ∀ (fuel : Nat) (log : List String) (c : String),
      ∃ t, (reduceLoop gen mc fuel log c).2 = log ++ t := by
  intro fuel
  induction fuel with
  | zero => intro log c; exact ⟨[], by simp [reduceLoop]⟩
  | succ n ih =>
    intro log c
    unfold reduceLoop send
    by_cases hc : c.length > mc
    · rw [if_pos hc]
      cases hg : gen ("Further compress while preserving technical fidelity:\n" ++ c) with
      | ok r =>
        obtain ⟨t, ht⟩ :=
          ih (log ++ ["Further compress while preserving technical fidelity:\n" ++ c]) (pstrip r)
        exact ⟨["Further compress while preserving technical fidelity:\n" ++ c] ++ t,
          by simpa using ht⟩
      | error e =>
        exact ⟨["Further compress while preserving technical fidelity:\n" ++ c], by simp⟩
    · rw [if_neg hc]
      exact ⟨[], by simp⟩

theorem summarize_chunks_openai_log (gen : Oracle) (cs mc : Nat) (log : List String) (text : String) :
    ∃ t, (summarize_chunks_openai gen cs mc log text).2 = log ++ t ∧
      (chunkString cs text ≠ [] → t ≠ []) := by
  unfold summarize_chunks_openai
  obtain ⟨t1, ht1, hne1⟩ := summarizeList_log gen (chunkString cs text) log
  cases hrec : summarizeList gen log (chunkString cs text) with
  | mk fst snd =>
    rw [hrec] at ht1
    cases fst with
    | error e => exact ⟨t1, by simpa using ht1, hne1⟩
    | ok summaries =>
      obtain ⟨t2, ht2⟩ := reduceLoop_log gen mc 3 snd (String.intercalate "\n\n" summaries)
      refine ⟨t1 ++ t2, ?_, fun h => by simp [hne1 h]⟩
      simp only at ht1 ⊢
      rw [ht2, ht1, List.append_assoc]

theorem openai_main_call_log (gen : Oracle) (cs mc : Nat) (log : List String) (eff : String) :
    ∃ t, (openai_main_call gen cs mc log eff).2 = log ++ [eff] ++ t := by
  unfold openai_main_call send
  cases hg : gen eff with
  | ok r => exact ⟨[], by simp⟩
  | error e =>
    cases e with
    | otherError m => exact ⟨[], by simp⟩
    | badRequest msg =>
      dsimp only
      by_cases hct : strContains (strToLower msg) "context length" = true
      · rw [if_pos hct]
        obtain ⟨t1, ht1, -⟩ := summarize_chunks_openai_log gen cs (mc / 2) (log ++ [eff]) eff
        cases hrec : summarize_chunks_openai gen cs (mc / 2) (log ++ [eff]) eff with
        | mk fst snd =>
          rw [hrec] at ht1
          cases fst with
          | ok e2 => exact ⟨t1 ++ [e2], by simp only at ht1 ⊢; rw [ht1, List.append_assoc]⟩
          | error e => exact ⟨t1, by simpa using ht1⟩
      · rw [if_neg hct]
        exact ⟨[], by simp⟩

theorem chunkString_ne_nil (size : Nat) (s : String) (h : s.toList ≠ []) :
    chunkString size s ≠ [] := by
  unfold chunkString
  cases hl : s.toList with
  | nil => exact absurd hl h
  | cons c rest => simp [chunkListAux]

theorem openai_call_log_ne (gen : Oracle) (cs mc : Nat) (log : List String) (p : String) :
    ∃ t, (openai_call gen cs mc log p).2 = log ++ t ∧ t ≠ [] := by
  unfold openai_call
  by_cases hl : p.length > mc
  · rw [if_pos hl]
    have hne : p.toList ≠ [] := by
      intro hnil
      have hlen0 : p.length = 0 := by
        rw [show p.length = p.toList.length from rfl, hnil]
        rfl
      omega
    obtain ⟨t1, ht1, hne1⟩ := summarize_chunks_openai_log gen cs mc log p
    cases hrec : summarize_chunks_openai gen cs mc log p with
    | mk fst snd =>
      rw [hrec] at ht1
      cases fst with
      | error e =>
        exact ⟨t1, by simpa using ht1, hne1 (chunkString_ne_nil cs p hne)⟩
      | ok eff =>
        obtain ⟨t2, ht2⟩ := openai_main_call_log gen cs mc snd eff
        refine ⟨t1 ++ [eff] ++ t2, ?_, by simp⟩
        simp only at ht1 ⊢
        rw [ht2, ht1]
        simp [List.append_assoc]
  · rw [if_neg hl]
    obtain ⟨t, ht⟩ := openai_main_call_log gen cs mc log p
    exact ⟨[p] ++ t, by simpa using ht, by simp⟩

theorem google_call_log_ne (gen : Oracle) (cs mc : Nat) (log : List String) (p : String) :
    ∃ t, (google_call gen cs mc log p).2 = log ++ t ∧ t ≠ [] := by
  unfold google_call summarize_chunks_google
  by_cases hl : p.length > mc
  · rw [if_pos hl]
    have hne : p.toList ≠ [] := by
      intro hnil
      have hlen0 : p.length = 0 := by
        rw [show p.length = p.toList.length from rfl, hnil]
        rfl
      omega
    obtain ⟨t1, ht1, hne1⟩ := summarize_chunks_openai_log gen cs mc log p
    cases hrec : summarize_chunks_openai gen cs mc log p with
    | mk fst snd =>
      rw [hrec] at ht1
      cases fst with
      | error e =>
        exact ⟨t1, by simpa using ht1, hne1 (chunkString_ne_nil cs p hne)⟩
      | ok eff =>
        refine ⟨t1 ++ [eff], ?_, by simp⟩
        simp only [send] at ht1 ⊢
        rw [ht1, List.append_assoc]
  · rw [if_neg hl]
    exact ⟨[p], by simp [send], by simp⟩

theorem call_llm_hit (provider : ProviderChoice) (gen : Oracle) (cs mc : Nat)
    (cR cW : CacheFile) (wOk : Bool) (prompt v : String)
    (h : dictLookup prompt (loadCache cR) = some v) :
    call_llm provider gen cs mc cR cW wOk prompt true = (.ok ⟨v, none⟩, []) := by
  unfold call_llm
  simp [h]

theorem call_llm_miss_shape (provider : ProviderChoice) (gen : Oracle) (cs mc : Nat)
    (cR cW : CacheFile) (wOk : Bool) (prompt : String)
    (h : dictLookup prompt (loadCache cR) = none) :
    call_llm provider gen cs mc cR cW wOk prompt true =
      match (match provider with
        | ProviderChoice.openai => openai_call gen cs mc [] prompt
        | ProviderChoice.google => google_call gen cs mc [] prompt) with
      | (.error e, log) => (.error e, log)
      | (.ok resp, log) =>
        (.ok ⟨resp, if wOk then some (dictInsert prompt resp (loadCache cW)) else none⟩, log) := by
  unfold call_llm
  simp [h]

theorem call_llm_nocache_shape (provider : ProviderChoice) (gen : Oracle) (cs mc : Nat)
    (cR cW : CacheFile) (wOk : Bool) (prompt : String) :
    call_llm provider gen cs mc cR cW wOk prompt false =
      match (match provider with
        | ProviderChoice.openai => openai_call gen cs mc [] prompt
        | ProviderChoice.google => google_call gen cs mc [] prompt) with
      | (.error e, log) => (.error e, log)
      | (.ok resp, log) => (.ok ⟨resp, none⟩, log) := by
  unfold call_llm
  simp

theorem branch_log_ne (provider : ProviderChoice) (gen : Oracle) (cs mc : Nat) (prompt : String) :
    (match provider with
      | ProviderChoice.openai => openai_call gen cs mc [] prompt
      | ProviderChoice.google => google_call gen cs mc [] prompt).2 ≠ [] := by
  cases provider with
  | openai =>
    obtain ⟨t, ht, hne⟩ := openai_call_log_ne gen cs mc [] prompt
    simpa [ht] using hne
  | google =>
    obtain ⟨t, ht, hne⟩ := google_call_log_ne gen cs mc [] prompt
    simpa [ht] using hne

/-! ## Concrete stubs used by the witnesses -/

/-- A provider stub that always answers `"x"`. -/
def oracleOk : Oracle := fun _ => .ok "x"

/-- A provider stub that rejects exactly the payload `"A"` with a
context-length `BadRequestError` and accepts everything else. -/
def oracleCtx : Oracle := fun s =>
  if s = "A" then .error (.badRequest "Context Length exceeded") else .ok "ok"

/-- A provider stub that always raises a non-`BadRequestError` failure:
the network path is unusable. -/
def oracleDown : Oracle := fun _ => .error (.otherError "network disabled")

/-! ## The claims -/

/-- C1: if `use_cache` is set and the loaded cache file has an entry whose
key equals the prompt exactly, `call_llm` returns the cached value with an
empty provider-request log (no network call) and performs no write; and
consequently, after a first `call_llm(P, use_cache=true)` succeeded and
wrote cache object `E`, a second invocation reading `E` returns the
identical response with an empty request log even under a completely
different (e.g. disabled) provider. -/
theorem call_llm_cache_hit_no_network :
    (∀ (provider : ProviderChoice) (gen : Oracle) (cs mc : Nat) (cR cW : CacheFile)
       (wOk : Bool) (prompt v : String),
      dictLookup prompt (loadCache cR) = some v →
      call_llm provider gen cs mc cR cW wOk prompt true = (.ok ⟨v, none⟩, [])) ∧
    (∀ (provider : ProviderChoice) (gen : Oracle) (cs mc : Nat) (cR cW : CacheFile)
       (prompt r : String) (E : List (String × String)) (log : List String)
       (provider2 : ProviderChoice) (gen2 : Oracle) (cs2 mc2 : Nat) (cW2 : CacheFile)
       (wOk2 : Bool),
      call_llm provider gen cs mc cR cW true prompt true = (.ok ⟨r, some E⟩, log) →
      call_llm provider2 gen2 cs2 mc2 (.valid E) cW2 wOk2 prompt true = (.ok ⟨r, none⟩, [])) := by
  constructor
  · intro provider gen cs mc cR cW wOk prompt v h
    exact call_llm_hit provider gen cs mc cR cW wOk prompt v h
  · intro provider gen cs mc cR cW prompt r E log provider2 gen2 cs2 mc2 cW2 wOk2 h
    have hE : dictLookup prompt (loadCache (.valid E)) = some r := by
      cases hdl : dictLookup prompt (loadCache cR) with
      | some v =>
        rw [call_llm_hit provider gen cs mc cR cW true prompt v hdl] at h
        simp at h
      | none =>
        rw [call_llm_miss_shape provider gen cs mc cR cW true prompt hdl] at h
        cases hbr : (match provider with
          | ProviderChoice.openai => openai_call gen cs mc [] prompt
          | ProviderChoice.google => google_call gen cs mc [] prompt) with
        | mk fst snd =>
          rw [hbr] at h
          cases fst with
          | error e => simp at h
          | ok resp =>
            simp only [Prod.mk.injEq, Except.ok.injEq, CallResult.mk.injEq] at h
            obtain ⟨⟨hresp, hwr⟩, -⟩ := h
            simp only [if_true] at hwr
            have hEeq : E = dictInsert prompt resp (loadCache cW) :=
              (Option.some_inj.mp hwr).symm
            show dictLookup prompt E = some r
            rw [hEeq, ← hresp]
            exact dictLookup_dictInsert prompt resp (loadCache cW)
    exact call_llm_hit provider2 gen2 cs2 mc2 (.valid E) cW2 wOk2 prompt r hE

/-- C1 witness: a concrete cache containing the prompt is returned as-is,
with no provider request, even though the provider stub would answer
differently. -/
theorem call_llm_cache_hit_no_network_witness :
    call_llm .google oracleDown 5 5 (.valid [("p", "r")]) .absent true "p" true =
      (.ok ⟨"r", none⟩, []) :=
  call_llm_cache_hit_no_network.1 .google oracleDown 5 5 (.valid [("p", "r")]) .absent true
    "p" "r" (by decide)

/-- C4: a corrupt/unreadable cache file and a missing cache file behave
exactly like an empty (cold) cache, for any prompt and caching mode; and a
failed cache write is skipped while the response is still returned: the
call with the write failing returns the same response and request log as
the successful-write call, just with nothing persisted. -/
theorem call_llm_cache_resilience :
    (∀ (provider : ProviderChoice) (gen : Oracle) (cs mc : Nat) (cW : CacheFile)
       (wOk uc : Bool) (prompt : String),
      call_llm provider gen cs mc .unreadable cW wOk prompt uc =
        call_llm provider gen cs mc (.valid []) cW wOk prompt uc ∧
      call_llm provider gen cs mc .absent cW wOk prompt uc =
        call_llm provider gen cs mc (.valid []) cW wOk prompt uc) ∧
    (∀ (provider : ProviderChoice) (gen : Oracle) (cs mc : Nat) (cR cW : CacheFile)
       (uc : Bool) (prompt : String) (r : CallResult) (log : List String),
      call_llm provider gen cs mc cR cW true prompt uc = (.ok r, log) →
      call_llm provider gen cs mc cR cW false prompt uc = (.ok ⟨r.response, none⟩, log)) := by
  constructor
  · intro provider gen cs mc cW wOk uc prompt
    exact ⟨rfl, rfl⟩
  · intro provider gen cs mc cR cW uc prompt r log h
    cases uc with
    | false =>
      rw [call_llm_nocache_shape] at h ⊢
      cases hbr : (match provider with
        | ProviderChoice.openai => openai_call gen cs mc [] prompt
        | ProviderChoice.google => google_call gen cs mc [] prompt) with
      | mk fst snd =>
        rw [hbr] at h
        cases fst with
        | error e => simp at h
        | ok resp =>
          simp only [Prod.mk.injEq, Except.ok.injEq] at h
          obtain ⟨h1, h2⟩ := h
          have hresp : r.response = resp := by rw [← h1]
          rw [hresp, h2]
    | true =>
      cases hdl : dictLookup prompt (loadCache cR) with
      | some v =>
        rw [call_llm_hit provider gen cs mc cR cW true prompt v hdl] at h
        rw [call_llm_hit provider gen cs mc cR cW false prompt v hdl]
        simp only [Prod.mk.injEq, Except.ok.injEq] at h
        obtain ⟨h1, h2⟩ := h
        have hresp : r.response = v := by rw [← h1]
        rw [hresp, h2]
      | none =>
        rw [call_llm_miss_shape provider gen cs mc cR cW true prompt hdl] at h
        rw [call_llm_miss_shape provider gen cs mc cR cW false prompt hdl]
        cases hbr : (match provider with
          | ProviderChoice.openai => openai_call gen cs mc [] prompt
          | ProviderChoice.google => google_call gen cs mc [] prompt) with
        | mk fst snd =>
          rw [hbr] at h
          cases fst with
          | error e => simp at h
          | ok resp =>
            simp only [Prod.mk.injEq, Except.ok.injEq] at h
            obtain ⟨h1, h2⟩ := h
            have hresp : r.response = resp := by rw [← h1]
            dsimp only
            rw [if_neg Bool.false_ne_true, hresp, h2]

/-- C4 witness: with an unreadable cache file the call equals the
cold-cache call, and when the cache write fails the provider response is
still returned. -/
theorem call_llm_cache_resilience_witness :
    (call_llm .openai oracleOk 5 5 .unreadable .absent true "q" true =
      call_llm .openai oracleOk 5 5 (.valid []) .absent true "q" true) ∧
    call_llm .openai oracleOk 5 5 .unreadable .absent false "q" true =
      (.ok ⟨"x", none⟩, ["q"]) :=
  ⟨(call_llm_cache_resilience.1 .openai oracleOk 5 5 .absent true true "q").1,
    call_llm_cache_resilience.2 .openai oracleOk 5 5 .unreadable .absent true "q"
      ⟨"x", some [("q", "x")]⟩ ["q"] (by decide)⟩

/-- C5: on a successful provider call with caching enabled (a genuine
miss), the object written to the cache file is the freshly re-loaded
`cacheAtWrite` object extended with the *original* prompt as key and the
raw response as value — regardless of any compression applied to the
outbound prompt. -/
theorem call_llm_persists_original_prompt (provider : ProviderChoice) (gen : Oracle)
    (cs mc : Nat) (cR cW : CacheFile) (prompt : String) (r : CallResult) (log : List String)
    (hmiss : dictLookup prompt (loadCache cR) = none)
    (h : call_llm provider gen cs mc cR cW true prompt true = (.ok r, log)) :
    r.written = some (dictInsert prompt r.response (loadCache cW)) := by
  rw [call_llm_miss_shape provider gen cs mc cR cW true prompt hmiss] at h
  cases hbr : (match provider with
    | ProviderChoice.openai => openai_call gen cs mc [] prompt
    | ProviderChoice.google => google_call gen cs mc [] prompt) with
  | mk fst snd =>
    rw [hbr] at h
    cases fst with
    | error e => simp at h
    | ok resp =>
      simp only [if_true, Prod.mk.injEq, Except.ok.injEq] at h
      obtain ⟨h1, -⟩ := h
      rw [← h1]

/-- C5 witness: a prompt longer than the ceiling is compressed before the
provider call (the request log shows the chunk and re-compression
requests), yet the cache entry written is keyed by the original
4-character prompt. -/
theorem call_llm_persists_original_prompt_witness :
    (⟨"x", some [("abcd", "x")]⟩ : CallResult).written =
      some (dictInsert "abcd" "x" (loadCache .absent)) :=
  call_llm_persists_original_prompt .openai oracleOk 2 2 .absent .absent "abcd"
    ⟨"x", some [("abcd", "x")]⟩
    ["Compress this chunk:\nab", "Compress this chunk:\ncd",
     "Further compress while preserving technical fidelity:\nx\n\nx", "x"]
    (by decide) (by decide)

/-- C9: with `use_cache = false`, `call_llm` neither reads nor writes the
cache file: the outcome is independent of both cache-file snapshots and of
the write-success flag, a successful call reports nothing written, and the
provider is always called (the request log is non-empty) even if the
cache holds an entry for this exact prompt. -/
theorem call_llm_no_cache_frame :
    (∀ (provider : ProviderChoice) (gen : Oracle) (cs mc : Nat)
       (cR cW cR2 cW2 : CacheFile) (wOk wOk2 : Bool) (prompt : String),
      call_llm provider gen cs mc cR cW wOk prompt false =
        call_llm provider gen cs mc cR2 cW2 wOk2 prompt false) ∧
    (∀ (provider : ProviderChoice) (gen : Oracle) (cs mc : Nat) (cR cW : CacheFile)
       (wOk : Bool) (prompt : String) (r : CallResult) (log : List String),
      call_llm provider gen cs mc cR cW wOk prompt false = (.ok r, log) →
      r.written = none ∧ log ≠ []) := by
  constructor
  · intro provider gen cs mc cR cW cR2 cW2 wOk wOk2 prompt
    rw [call_llm_nocache_shape, call_llm_nocache_shape]
  · intro provider gen cs mc cR cW wOk prompt r log h
    rw [call_llm_nocache_shape] at h
    have hlog := branch_log_ne provider gen cs mc prompt
    cases hbr : (match provider with
      | ProviderChoice.openai => openai_call gen cs mc [] prompt
      | ProviderChoice.google => google_call gen cs mc [] prompt) with
    | mk fst snd =>
      rw [hbr] at h hlog
      cases fst with
      | error e => simp at h
      | ok resp =>
        simp only [Prod.mk.injEq, Except.ok.injEq] at h
        obtain ⟨h1, h2⟩ := h
        refine ⟨?_, ?_⟩
        · rw [← h1]
        · rw [← h2]
          exact hlog

/-- C9 witness: a cached entry for the prompt is ignored when caching is
off — the provider is called, nothing is written, and the result does not
depend on the cache file. -/
theorem call_llm_no_cache_frame_witness :
    (call_llm .openai oracleOk 5 5 (.valid [("p", "r")]) .unreadable true "p" false =
      call_llm .openai oracleOk 5 5 .absent .absent false "p" false) ∧
    ((⟨"x", none⟩ : CallResult).written = none ∧ (["p"] : List String) ≠ []) :=
  ⟨call_llm_no_cache_frame.1 .openai oracleOk 5 5 (.valid [("p", "r")]) .unreadable .absent
      .absent true false "p",
    call_llm_no_cache_frame.2 .openai oracleOk 5 5 (.valid [("p", "r")]) .unreadable true "p"
      ⟨"x", none⟩ ["p"] (by decide)⟩

theorem summarizeList_ok (gen : Oracle) (htot : ∀ s, ∃ r, gen s = .ok r) (cs : List String) :
    ∀ log, ∃ ss log1, summarizeList gen log cs = (.ok ss, log1) ∧
      log1.length = log.length + cs.length := by
  induction cs with
  | nil =>
    intro log
    exact ⟨[], log, by simp [summarizeList], by simp⟩
  | cons c rest ih =>
    intro log
    obtain ⟨r, hr⟩ := htot ("Compress this chunk:\n" ++ c)
    obtain ⟨ss, log1, hrec, hlen⟩ := ih (log ++ ["Compress this chunk:\n" ++ c])
    refine ⟨pstrip r :: ss, log1, ?_, ?_⟩
    · simp only [summarizeList, send, hr]
      rw [hrec]
    · rw [hlen]
      simp only [List.length_append, List.length_cons, List.length_nil]
      omega

theorem reduceLoop_fits (gen : Oracle) (mc : Nat)
    (hgen : ∀ s, ∃ r, gen s = .ok r ∧ (pstrip r).length ≤ mc) (c : String) (log : List String) :
    ∃ out log1, reduceLoop gen mc 3 log c = (.ok out, log1) ∧ out.length ≤ mc ∧
      log1.length ≤ log.length + 3 := by
  by_cases hc : c.length > mc
  · obtain ⟨r, hr, hle⟩ := hgen ("Further compress while preserving technical fidelity:\n" ++ c)
    have hnot : ¬ (pstrip r).length > mc := by omega
    refine ⟨pstrip r, log ++ ["Further compress while preserving technical fidelity:\n" ++ c],
      ?_, hle, by simp⟩
    simp only [reduceLoop, send, hr, if_pos hc]
    simp only [reduceLoop, if_neg hnot]
  · refine ⟨c, log, ?_, by omega, by omega⟩
    simp only [reduceLoop, if_neg hc]

/-- C2: when the prompt exceeds the provider's character ceiling, the
OpenAI branch splits it into fixed-size chunks, compresses each chunk
independently, concatenates the summaries and re-compresses the
concatenation (at most 3 additional provider requests beyond the one per
chunk), and — provided every compression reply fits the ceiling, as with
the fake provider of the spec's test — the prompt finally passed to the
provider is the compression output, of length `≤` the ceiling. -/
theorem openai_compression_fits (gen : Oracle) (cs mc : Nat) (log0 : List String)
    (prompt : String)
    (hlen : prompt.length > mc)
    (hgen : ∀ s, ∃ r, gen s = .ok r ∧ (pstrip r).length ≤ mc) :
    ∃ eff r log1,
      summarize_chunks_openai gen cs mc log0 prompt = (.ok eff, log1) ∧
      eff.length ≤ mc ∧
      gen eff = .ok r ∧
      openai_call gen cs mc log0 prompt = (.ok r, log1 ++ [eff]) ∧
      log1.length ≤ log0.length + (chunkString cs prompt).length + 3 := by
  have htot : ∀ s, ∃ r, gen s = .ok r := fun s => (hgen s).elim (fun r hr => ⟨r, hr.1⟩)
  obtain ⟨ss, logA, hsl, hslLen⟩ := summarizeList_ok gen htot (chunkString cs prompt) log0
  obtain ⟨out, logB, hrl, houtLe, hrlLen⟩ :=
    reduceLoop_fits gen mc hgen (String.intercalate "\n\n" ss) logA
  have hsum : summarize_chunks_openai gen cs mc log0 prompt = (.ok out, logB) := by
    unfold summarize_chunks_openai
    rw [hsl]
    exact hrl
  obtain ⟨r, hr⟩ := htot out
  have hmain : openai_main_call gen cs mc logB out = (.ok r, logB ++ [out]) := by
    unfold openai_main_call send
    rw [hr]
  have hoc : openai_call gen cs mc log0 prompt = (.ok r, logB ++ [out]) := by
    unfold openai_call
    rw [if_pos hlen, hsum]
    exact hmain
  exact ⟨out, r, logB, hsum, houtLe, hr, hoc, by omega⟩

/-- C2 witness: the 4-character prompt `"abcd"` against a ceiling of 2
with chunk size 2 and a stub provider answering `"x"` everywhere. -/
theorem openai_compression_fits_witness :
    ∃ eff r log1,
      summarize_chunks_openai oracleOk 2 2 [] "abcd" = (.ok eff, log1) ∧
      eff.length ≤ 2 ∧
      oracleOk eff = .ok r ∧
      openai_call oracleOk 2 2 [] "abcd" = (.ok r, log1 ++ [eff]) ∧
      log1.length ≤ List.length ([] : List String) + (chunkString 2 "abcd").length + 3 :=
  openai_compression_fits oracleOk 2 2 [] "abcd" (by decide)
    (fun _ => ⟨"x", rfl, by decide⟩)

/-- C3: when the provider raises a `BadRequestError` whose message
(lowered) contains `"context length"`, the guarded main call performs one
additional compression pass at half the original ceiling and retries the
provider exactly once, the retry's outcome (success or failure)
propagating as-is; a `BadRequestError` without that marker, and any other
runtime failure, propagate uncaught — as does any failure of the single
unguarded Gemini-branch call. -/
theorem openai_context_retry (gen : Oracle) (cs mc : Nat) (log0 : List String)
    (effective msg : String) :
    (gen effective = .error (.badRequest msg) →
      strContains (strToLower msg) "context length" = true →
      ∀ e2 log2,
        summarize_chunks_openai gen cs (mc / 2) (log0 ++ [effective]) effective =
          (.ok e2, log2) →
        openai_main_call gen cs mc log0 effective = (gen e2, log2 ++ [e2])) ∧
    (gen effective = .error (.badRequest msg) →
      strContains (strToLower msg) "context length" = false →
      openai_main_call gen cs mc log0 effective =
        (.error (.badRequest msg), log0 ++ [effective])) ∧
    (∀ emsg, gen effective = .error (.otherError emsg) →
      openai_main_call gen cs mc log0 effective =
        (.error (.otherError emsg), log0 ++ [effective])) ∧
    (∀ p e, p.length ≤ mc → gen p = .error e →
      google_call gen cs mc log0 p = (.error e, log0 ++ [p])) := by
  refine ⟨?_, ?_, ?_, ?_⟩
  · intro hg hct e2 log2 hsum
    unfold openai_main_call send
    rw [hg]
    dsimp only
    rw [if_pos hct, hsum]
  · intro hg hct
    unfold openai_main_call send
    rw [hg]
    dsimp only
    rw [if_neg (by rw [hct]; exact Bool.false_ne_true)]
  · intro emsg hg
    unfold openai_main_call send
    rw [hg]
  · intro p e hple hg
    unfold google_call send
    rw [if_neg (by omega), hg]

/-- C3 witness: a provider rejecting exactly the payload `"A"` with a
context-length error; the call compresses at half the ceiling and retries
once, succeeding. -/
theorem openai_context_retry_witness :
    openai_main_call oracleCtx 2 10 [] "A" =
      (oracleCtx "ok", ["A", "Compress this chunk:\nA"] ++ ["ok"]) :=
  (openai_context_retry oracleCtx 2 10 [] "A" "Context Length exceeded").1
    (by decide) (by decide) "ok" ["A", "Compress this chunk:\nA"] (by decide)

/-- C6: the flow built by `create_tutorial_flow` starts at the fetch-repo
node and connects the seven stages in exactly the fixed sequence
fetch-repo → identify-abstractions(map) → identify-abstractions(reduce) →
analyze-relationships → order-chapters → write-chapters → combine, the
final stage having no successor (no other edges exist). -/
theorem create_tutorial_flow_wiring :
    create_tutorial_flow.start = NodeId.fetchRepo ∧
    create_tutorial_flow.succ NodeId.fetchRepo = some NodeId.identifyAbstractionsMap ∧
    create_tutorial_flow.succ NodeId.identifyAbstractionsMap =
      some NodeId.identifyAbstractionsReduce ∧
    create_tutorial_flow.succ NodeId.identifyAbstractionsReduce =
      some NodeId.analyzeRelationships ∧
    create_tutorial_flow.succ NodeId.analyzeRelationships = some NodeId.orderChapters ∧
    create_tutorial_flow.succ NodeId.orderChapters = some NodeId.writeChapters ∧
    create_tutorial_flow.succ NodeId.writeChapters = some NodeId.combineTutorial ∧
    create_tutorial_flow.succ NodeId.combineTutorial = none := by
  decide

/-- C7: when the first tree-listing request is refused with 401 or 404,
`crawl_gitlab_files` does not raise: it answers with an empty file dict
and a stats dict holding only an error message, so the pipeline can
proceed with an empty file set. -/
theorem crawl_auth_errors_degrade (lp : Nat → PageResp) (rf : String → FetchResp)
    (fuel maxfs : Nat) (urp : Bool) (sp : String) (fnm : String → String → Bool)
    (inc exc : List String) :
    ((lp 1).status = 401 →
      crawl_gitlab_files lp rf (fuel + 1) maxfs urp sp fnm inc exc =
        some ⟨[], ⟨some "Unauthorized", none, none, none⟩⟩) ∧
    ((lp 1).status = 404 →
      crawl_gitlab_files lp rf (fuel + 1) maxfs urp sp fnm inc exc =
        some ⟨[], ⟨some "Not found", none, none, none⟩⟩) := by
  constructor
  · intro h
    have hll : listLoop lp (fuel + 1) 1 [] = some (.error "Unauthorized") := by
      simp [listLoop, h]
    unfold crawl_gitlab_files
    rw [hll]
  · intro h
    have hll : listLoop lp (fuel + 1) 1 [] = some (.error "Not found") := by
      simp [listLoop, h]
    unfold crawl_gitlab_files
    rw [hll]

/-- C7 witness: a listing oracle that always answers 401. -/
theorem crawl_auth_errors_degrade_witness :
    crawl_gitlab_files (fun _ => ⟨401, "", []⟩) (fun _ => ⟨200, ""⟩) 1 100 false ""
        (fun _ _ => false) [] [] =
      some ⟨[], ⟨some "Unauthorized", none, none, none⟩⟩ :=
  (crawl_auth_errors_degrade (fun _ => ⟨401, "", []⟩) (fun _ => ⟨200, ""⟩) 0 100 false ""
      (fun _ _ => false) [] []).1 (by decide)

theorem fetchLoop_files_bound (rf : String → FetchResp) (maxfs : Nat) :
    ∀ (blobs : List (String × String)) (files0 : List (String × String))
      (skipped0 : List (String × Nat)),
      (∀ e ∈ files0, e.2.utf8ByteSize ≤ maxfs) →
      ∀ e ∈ (fetchLoop rf maxfs blobs files0 skipped0).1, e.2.utf8ByteSize ≤ maxfs := by
  intro blobs
  induction blobs with
  | nil =>
    intro files0 skipped0 h0 e he
    exact h0 e (by simpa [fetchLoop] using he)
  | cons b rest ih =>
    obtain ⟨p, rel⟩ := b
    intro files0 skipped0 h0 e he
    simp only [fetchLoop] at he
    by_cases hs : (rf p).status ≠ 200
    · rw [if_pos hs] at he
      exact ih _ _ h0 e he
    · rw [if_neg hs] at he
      by_cases hsz : (rf p).text.utf8ByteSize > maxfs
      · rw [if_pos hsz] at he
        exact ih _ _ h0 e he
      · rw [if_neg hsz] at he
        refine ih _ _ ?_ e he
        intro e2 he2
        rcases mem_dictInsert he2 with h | h
        · rw [h]
          exact Nat.le_of_not_lt hsz
        · exact h0 e2 h

theorem fetchLoop_skipped_mono (rf : String → FetchResp) (maxfs : Nat) :
    ∀ (blobs : List (String × String)) (files0 : List (String × String))
      (skipped0 : List (String × Nat)) (x : String × Nat),
      x ∈ skipped0 → x ∈ (fetchLoop rf maxfs blobs files0 skipped0).2 := by
  intro blobs
  induction blobs with
  | nil =>
    intro files0 skipped0 x hx
    simpa [fetchLoop] using hx
  | cons b rest ih =>
    obtain ⟨p, rel⟩ := b
    intro files0 skipped0 x hx
    simp only [fetchLoop]
    by_cases hs : (rf p).status ≠ 200
    · rw [if_pos hs]
      exact ih _ _ x (List.mem_append_left _ hx)
    · rw [if_neg hs]
      by_cases hsz : (rf p).text.utf8ByteSize > maxfs
      · rw [if_pos hsz]
        exact ih _ _ x (List.mem_append_left _ hx)
      · rw [if_neg hsz]
        exact ih _ _ x hx

theorem fetchLoop_oversized_skipped (rf : String → FetchResp) (maxfs : Nat) :
    ∀ (blobs : List (String × String)) (files0 : List (String × String))
      (skipped0 : List (String × Nat)) (p rel : String),
      (p, rel) ∈ blobs → (rf p).status = 200 → (rf p).text.utf8ByteSize > maxfs →
      (rel, (rf p).text.utf8ByteSize) ∈ (fetchLoop rf maxfs blobs files0 skipped0).2 := by
  intro blobs
  induction blobs with
  | nil =>
    intro _ _ _ _ hmem _ _
    simp at hmem
  | cons b rest ih =>
    obtain ⟨q, qrel⟩ := b
    intro files0 skipped0 p rel hmem hst hsz
    rw [List.mem_cons] at hmem
    rcases hmem with heq | hmem
    · injection heq with h1 h2
      subst h1
      subst h2
      simp only [fetchLoop]
      rw [if_neg (by rw [hst]; simp)]
      rw [if_pos hsz]
      exact fetchLoop_skipped_mono rf maxfs rest files0 _ _ (by simp)
    · simp only [fetchLoop]
      by_cases hs2 : (rf q).status ≠ 200
      · rw [if_pos hs2]
        exact ih _ _ p rel hmem hst hsz
      · rw [if_neg hs2]
        by_cases hsz2 : (rf q).text.utf8ByteSize > maxfs
        · rw [if_pos hsz2]
          exact ih _ _ p rel hmem hst hsz
        · rw [if_neg hsz2]
          exact ih _ _ p rel hmem hst hsz

/-- C8: on a successful listing, every file retained in the returned dict
has UTF-8 byte size within `max_file_size`; every selected file whose
fetched content exceeds the ceiling is omitted from the dict (its exact
content never appears, truncated or otherwise) and is recorded in
`stats.skipped_files` as its `(relative path, size)` pair; and
`downloaded_count` / `skipped_count` equal the number of returned and
skipped files respectively. -/
theorem crawl_size_ceiling (lp : Nat → PageResp) (rf : String → FetchResp)
    (fuel maxfs : Nat) (urp : Bool) (sp : String) (fnm : String → String → Bool)
    (inc exc : List String) (items : List TreeItem) (res : CrawlReturn)
    (hlist : listLoop lp fuel 1 [] = some (.ok items))
    (hres : crawl_gitlab_files lp rf fuel maxfs urp sp fnm inc exc = some res) :
    (∀ e ∈ res.files, e.2.utf8ByteSize ≤ maxfs) ∧
    (∀ p rel, (p, rel) ∈ collectBlobs urp sp fnm inc exc items →
      (rf p).status = 200 → (rf p).text.utf8ByteSize > maxfs →
      (rel, (rf p).text.utf8ByteSize) ∈ res.stats.skipped_files.getD [] ∧
      (rel, (rf p).text) ∉ res.files) ∧
    res.stats.error = none ∧
    res.stats.downloaded_count = some res.files.length ∧
    res.stats.skipped_count = some (res.stats.skipped_files.getD []).length := by
  have hres2 : res =
      ⟨(fetchLoop rf maxfs (collectBlobs urp sp fnm inc exc items) [] []).1,
        ⟨none,
          some (fetchLoop rf maxfs (collectBlobs urp sp fnm inc exc items) [] []).1.length,
          some (fetchLoop rf maxfs (collectBlobs urp sp fnm inc exc items) [] []).2.length,
          some (fetchLoop rf maxfs (collectBlobs urp sp fnm inc exc items) [] []).2⟩⟩ := by
    have h2 := hres
    unfold crawl_gitlab_files at h2
    rw [hlist] at h2
    exact (Option.some_inj.mp h2).symm
  subst hres2
  have hbound := fetchLoop_files_bound rf maxfs (collectBlobs urp sp fnm inc exc items) [] []
    (by intro e he; simp at he)
  refine ⟨hbound, ?_, rfl, rfl, rfl⟩
  intro p rel hmem hst hsz
  refine ⟨?_, ?_⟩
  · exact fetchLoop_oversized_skipped rf maxfs _ [] [] p rel hmem hst hsz
  · intro hmemf
    have h3 : (rf p).text.utf8ByteSize ≤ maxfs := hbound (rel, (rf p).text) hmemf
    omega

/-- Concrete listing oracle for the C8 witness: one page with an
oversized and a small blob. -/
def lpW : Nat → PageResp := fun _ =>
  ⟨200, "", [⟨"blob", "big.txt", "big.txt"⟩, ⟨"blob", "ok.txt", "ok.txt"⟩]⟩

/-- Concrete raw-content oracle for the C8 witness: `big.txt` is 7 bytes,
everything else 2 bytes. -/
def rfW : String → FetchResp := fun p =>
  if p = "big.txt" then ⟨200, "toolong"⟩ else ⟨200, "ab"⟩

/-- The items `lpW` lists. -/
def itemsW : List TreeItem := [⟨"blob", "big.txt", "big.txt"⟩, ⟨"blob", "ok.txt", "ok.txt"⟩]

/-- The value `crawl_gitlab_files` returns in the C8 witness scenario:
`big.txt` (7 bytes > ceiling 3) is skipped with its size, `ok.txt` kept. -/
def resW : CrawlReturn := ⟨[("ok.txt", "ab")], ⟨none, some 1, some 1, some [("big.txt", 7)]⟩⟩

/-- C8 witness: in the concrete scenario the oversized file lands in
`skipped_files` with its byte size and its content is absent from the
returned files. -/
theorem crawl_size_ceiling_witness :
    ("big.txt", (rfW "big.txt").text.utf8ByteSize) ∈ resW.stats.skipped_files.getD [] ∧
    ("big.txt", (rfW "big.txt").text) ∉ resW.files :=
  (crawl_size_ceiling lpW rfW 1 3 false "" (fun _ _ => false) [] [] itemsW resW
      (by decide) (by decide)).2.1 "big.txt" "big.txt" (by decide) (by decide) (by decide)

theorem include_if_iff (fnm : String → String → Bool) (inc : List String) (name : String) :
    (if inc.isEmpty then true else inc.any (fun p => fnm name p)) = true ↔
      (inc = [] ∨ ∃ p ∈ inc, fnm name p = true) := by
  cases inc with
  | nil => simp
  | cons i is => simp [List.any_eq_true]

/-- C10: `should_include_file` accepts a file exactly when the include
set is empty or some include pattern matches the bare file *name*, and it
is not the case that the exclude set is non-empty and some exclude
pattern matches the file's (relative) *path* — exclusion being tested only
after inclusion passed. -/
theorem should_include_file_spec (fnm : String → String → Bool)
    (inc exc : List String) (path name : String) :
    should_include_file fnm inc exc path name = true ↔
      ((inc = [] ∨ ∃ p ∈ inc, fnm name p = true) ∧
       ¬(exc ≠ [] ∧ ∃ p ∈ exc, fnm path p = true)) := by
  unfold should_include_file
  cases exc with
  | nil =>
    simp only [List.isEmpty_nil, Bool.not_true, Bool.false_and, Bool.false_eq_true, if_false]
    rw [include_if_iff]
    simp
  | cons e es =>
    by_cases hIF : (if inc.isEmpty then true else inc.any (fun p => fnm name p)) = true
    · have hcond : ((!(e :: es).isEmpty) &&
          (if inc.isEmpty then true else inc.any (fun p => fnm name p))) = true := by
        rw [Bool.and_eq_true]
        exact ⟨by simp, hIF⟩
      rw [if_pos hcond]
      rw [include_if_iff] at hIF
      simp [hIF, List.any_eq_true]
    · have hIF2 : (if inc.isEmpty then true else inc.any (fun p => fnm name p)) = false :=
        Bool.eq_false_iff.mpr hIF
      have hcond : ¬((!(e :: es).isEmpty) &&
          (if inc.isEmpty then true else inc.any (fun p => fnm name p))) = true := by
        intro hc
        rw [Bool.and_eq_true] at hc
        exact hIF hc.2
      rw [if_neg hcond, hIF2]
      constructor
      · intro h
        exact absurd h Bool.false_ne_true
      · rintro ⟨hA, -⟩
        exact absurd ((include_if_iff fnm inc name).mpr hA) hIF

end PFTutorial
